import Mathlib

/-!
Shallow embedding of `src/fixShardNames.js`.

The script repairs a sharded-cluster metadata store: every shard record's
`_id` must equal the name of its backing replica set, which is the part of
the record's `host` field before the first slash (`host.split("/")[0]` in
the source).  For every shard record whose `_id` differs from that name the
script (in execute mode) re-keys the shard record (remove under the old
`_id`, insert under the new one), propagates the rename to the `databases`
and `chunks` collections by bulk update, and verifies by re-counting that
no document references the old `_id` any more.

The metadata store is modelled as three lists of documents, one per
collection; the mongo shell write operations become functions from the
store to the store together with the write result the shell reports
(`nRemoved`, `nInserted`, `nMatched`, `nUpserted`, `nModified`).  A failing
`assert` in the script becomes an `Except.error`; the error value carries
the store as it stands at the moment the assert throws, since the script
aborts without rollback.  Every operation additionally records an event
trace: write events for store mutations, count events for the reference
counting, and message events for `print` and `printIfVerbose` output, so
that ordering and verbosity claims can be stated about the trace.
-/

namespace FixShardNames

/-- A document of the `shards` collection: `{_id, host}`, where `host` is
`"<replSetName>/<seedlist>"`. -/
structure ShardDoc where
  _id : String
  host : String
deriving Repr, DecidableEq

/-- A document of the `databases` collection; only the `primary` field (the
shard id the database lives on) is inspected or written by the script.
`name` stands for the rest of the document. -/
structure DatabaseDoc where
  name : String
  primary : String
deriving Repr, DecidableEq

/-- A document of the `chunks` collection; only the `shard` field (the shard
id owning the chunk) is inspected or written by the script.  `range` stands
for the rest of the document. -/
structure ChunkDoc where
  range : String
  shard : String
deriving Repr, DecidableEq

/-- The metadata store: the three collections the script touches. -/
structure Store where
  shards : List ShardDoc
  databases : List DatabaseDoc
  chunks : List ChunkDoc
deriving Repr, DecidableEq

/-- The per-shard outcome object `ret` built by `fix`:
`{_id, needsFixing, fixed}` plus the `docsUpdated` field that is only
assigned on the execute path (absent = `none`). -/
structure Outcome where
  _id : String
  needsFixing : Bool
  fixed : Bool
  docsUpdated : Option Nat
deriving Repr, DecidableEq

/-- The failing `assert`s of the script, one constructor per distinct
abort condition in the mutation path. -/
inductive ScriptError where
  /-- `assert.gt(newShardId.length, 0, "New shard Id is too short")` -/
  | malformedHost
  /-- `assert.neq(oldId, newDoc._id, ...)` in `fixShards` -/
  | reKeyIdsEqual
  /-- `assert.eq(1, ret.nRemoved, ...)` in `removeShard` -/
  | removeFailed
  /-- `assert.eq(1, ret.nInserted, ...)` in `insertShard` -/
  | insertFailed
  /-- `assert.eq(0, ret.nUpserted, ...)` in `fixDatabases` -/
  | databasesUpsert
  /-- `assert.eq(ret.nMatched, ret.nModified, ...)` in `fixDatabases` -/
  | databasesMatchedModified
  /-- `assert.gt(ret.nMatched, 0, ...)` in `fixChunks` -/
  | noChunks
  /-- `assert.eq(0, ret.nUpserted, ...)` in `fixChunks` -/
  | chunksUpsert
  /-- `assert.eq(ret.nMatched, ret.nModified, ...)` in `fixChunks` -/
  | chunksMatchedModified
  /-- `assert.eq(0, docsNotFixed, "Could not do all of the modifications")` in `fix` -/
  | incompleteRepair
  /-- `assert.gt(shards.length, 0, "No shard documents found")` in the main section -/
  | noShards
deriving Repr, DecidableEq

/-- A write operation issued against the store, as observable by the store
adapter (one event per shell write call). -/
inductive WriteOp where
  /-- `db.shards.remove({_id: oldId})` -/
  | removeShardDoc (oldId : String)
  /-- `db.shards.insert(newDoc)` -/
  | insertShardDoc (doc : ShardDoc)
  /-- `db.databases.update({primary: oldId}, {$set: {primary: newId}}, {multi: true})` -/
  | updateDatabaseDocs (oldId newId : String)
  /-- `db.chunks.update({shard: oldId}, {$set: {shard: newId}}, {multi: true})` -/
  | updateChunkDocs (oldId newId : String)
deriving Repr, DecidableEq

/-- One entry of the execution trace: a printed message, a reference count
(`countShardIdDocs`), or a store write. -/
inductive Event where
  | msg (s : String)
  | countRefs (shardId : String)
  | write (w : WriteOp)
deriving Repr, DecidableEq

instance {ε α : Type} [DecidableEq ε] [DecidableEq α] : DecidableEq (Except ε α) := fun a b =>
  match a, b with
  | Except.error e, Except.error f =>
      if h : e = f then isTrue (by rw [h]) else isFalse (fun hh => by cases hh; exact h rfl)
  | Except.ok x, Except.ok y =>
      if h : x = y then isTrue (by rw [h]) else isFalse (fun hh => by cases hh; exact h rfl)
  | Except.error _, Except.ok _ => isFalse (fun hh => by cases hh)
  | Except.ok _, Except.error _ => isFalse (fun hh => by cases hh)

/-- `host.split("/")[0]`: the part of the string before the first `/`
(the whole string when it has no `/`, empty when it starts with `/`). -/
def splitFirst (s : String) : String :=
  String.mk (s.data.takeWhile (fun c => c ≠ '/'))

/-- `printIfVerbose(arg)`: emits the message only when `verbose` is true. -/
def printIfVerbose (verbose : Bool) (s : String) : List Event :=
  if verbose then [Event.msg s] else []

/-- `detectDryRun()`: prints a notice exactly when `dryRun` is true. -/
def detectDryRun (dryRun : Bool) : List Event :=
  if dryRun then
    [Event.msg "The script is running in dry run mode. No modifications will be done to the metadata"]
  else []

/-- `countShardIdDocs(shardId)`: total number of documents referencing the
shard id, summed over `chunks` (`shard` field), `databases` (`primary`
field) and `shards` (`_id` field). -/
def countShardIdDocs (st : Store) (shardId : String) : Nat :=
  (st.chunks.filter (fun c => c.shard == shardId)).length
    + (st.databases.filter (fun d => d.primary == shardId)).length
    + (st.shards.filter (fun s => s._id == shardId)).length

/-- `removeShard(oldId)`: `db.shards.remove({_id: oldId})` removes every
matching document and reports `nRemoved`; the script then asserts
`nRemoved == 1`.  The removal itself happens before the assert, so the
error value carries the store with the documents already removed. -/
def removeShard (st : Store) (oldId : String) (verbose : Bool) :
    Except (ScriptError × Store) Store × List Event :=
  let nRemoved := (st.shards.filter (fun d => d._id == oldId)).length
  let st1 : Store := { st with shards := st.shards.filter (fun d => !(d._id == oldId)) }
  if nRemoved = 1 then
    (Except.ok st1,
      [Event.write (WriteOp.removeShardDoc oldId)] ++ printIfVerbose verbose "remove result")
  else
    (Except.error (ScriptError.removeFailed, st1), [Event.write (WriteOp.removeShardDoc oldId)])

/-- `insertShard(newDoc)`: `db.shards.insert(newDoc)` reports
`nInserted == 1` on success; a duplicate key on the unique `_id` index or
on the unique `host` index makes the insert report `nInserted == 0` and
leaves the store unchanged, failing the script's assert. -/
def insertShard (st : Store) (newDoc : ShardDoc) (verbose : Bool) :
    Except (ScriptError × Store) Store × List Event :=
  if st.shards.any (fun d => d._id == newDoc._id || d.host == newDoc.host) then
    (Except.error (ScriptError.insertFailed, st), [Event.write (WriteOp.insertShardDoc newDoc)])
  else
    (Except.ok { st with shards := st.shards ++ [newDoc] },
      [Event.write (WriteOp.insertShardDoc newDoc)] ++ printIfVerbose verbose "insert result")

/-- `fixShards(oldId, newDoc)`: asserts the two ids differ, then removes the
shard document under the old id and reinserts it under the new id. -/
def fixShards (st : Store) (oldId : String) (newDoc : ShardDoc) (verbose : Bool) :
    Except (ScriptError × Store) Store × List Event :=
  let ev0 := printIfVerbose verbose "Updating config.shards..."
  if oldId = newDoc._id then
    (Except.error (ScriptError.reKeyIdsEqual, st), ev0)
  else
    let r1 := removeShard st oldId verbose
    match r1.1 with
    | Except.error e => (Except.error e, ev0 ++ r1.2)
    | Except.ok st1 =>
      let r2 := insertShard st1 newDoc verbose
      match r2.1 with
      | Except.error e => (Except.error e, ev0 ++ r1.2 ++ r2.2)
      | Except.ok st2 =>
        (Except.ok st2,
          ev0 ++ r1.2 ++ r2.2 ++ printIfVerbose verbose "Done updating config.shards")

/-- The write result a multi-document `update` reports: how many documents
matched the filter, how many were upserted, and how many were actually
modified. -/
structure UpdateResult where
  nMatched : Nat
  nUpserted : Nat
  nModified : Nat
deriving Repr, DecidableEq

/-- A `{multi: true}` `$set` update: every document matching `p` is rewritten
by `f`; `nMatched` counts the matching documents, `nModified` only those
whose content actually changed, and a plain update never upserts. -/
def bulkUpdate {α : Type} [DecidableEq α] (p : α → Bool) (f : α → α) (docs : List α) :
    List α × UpdateResult :=
  (docs.map (fun d => if p d then f d else d),
    { nMatched := (docs.filter p).length
      nUpserted := 0
      nModified := (docs.filter (fun d => p d && !(f d == d))).length })

/-- The assert sequence of `fixDatabases` applied to the update result:
zero matches are acceptable, but any upsert or a matched count differing
from the modified count fails the script. -/
def checkDatabasesUpdate (ret : UpdateResult) : Option ScriptError :=
  if ret.nUpserted ≠ 0 then some ScriptError.databasesUpsert
  else if ret.nMatched ≠ ret.nModified then some ScriptError.databasesMatchedModified
  else none

/-- `fixDatabases(oldId, newId)`: bulk-updates `databases` documents with
`primary == oldId` to `primary = newId`, then runs the result asserts. -/
def fixDatabases (st : Store) (oldId newId : String) (verbose : Bool) :
    Except (ScriptError × Store) Store × List Event :=
  let ev0 := [Event.msg "Updating config.databases..."]
  let r := bulkUpdate (fun d => d.primary == oldId)
      (fun d => { d with primary := newId }) st.databases
  let st1 : Store := { st with databases := r.1 }
  let evW := ev0 ++ [Event.write (WriteOp.updateDatabaseDocs oldId newId)]
  match checkDatabasesUpdate r.2 with
  | some e => (Except.error (e, st1), evW)
  | none =>
    (Except.ok st1,
      evW ++ printIfVerbose verbose "update result"
        ++ printIfVerbose verbose "Done updating config.databases")

/-- The assert sequence of `fixChunks` applied to the update result: unlike
`fixDatabases` it first requires at least one matched chunk, then performs
the same upsert and matched-vs-modified checks. -/
def checkChunksUpdate (ret : UpdateResult) : Option ScriptError :=
  if ret.nMatched = 0 then some ScriptError.noChunks
  else if ret.nUpserted ≠ 0 then some ScriptError.chunksUpsert
  else if ret.nMatched ≠ ret.nModified then some ScriptError.chunksMatchedModified
  else none

/-- `fixChunks(oldId, newId)`: bulk-updates `chunks` documents with
`shard == oldId` to `shard = newId`, then runs the result asserts. -/
def fixChunks (st : Store) (oldId newId : String) (verbose : Bool) :
    Except (ScriptError × Store) Store × List Event :=
  let ev0 := [Event.msg "Updating config.chunks..."]
  let r := bulkUpdate (fun c => c.shard == oldId)
      (fun c => { c with shard := newId }) st.chunks
  let st1 : Store := { st with chunks := r.1 }
  let evW := ev0 ++ [Event.write (WriteOp.updateChunkDocs oldId newId)]
  match checkChunksUpdate r.2 with
  | some e => (Except.error (e, st1), evW)
  | none =>
    (Except.ok st1,
      evW ++ printIfVerbose verbose "chunk update result"
        ++ [Event.msg "Done updating config.chunks"])

/-- `fix(shardDoc)`: the per-shard repair.  Captures the old id, overwrites
the document's `_id` in place with `host.split("/")[0]`, asserts the new id
is nonempty, and when the ids differ counts the referencing documents and —
in execute mode — runs the four mutation sub-steps (re-key, propagate
databases, propagate chunks, verify re-count).  Returns the updated store,
the (mutated) shard document, and the outcome object. -/
def fix (dryRun verbose : Bool) (st : Store) (shardDoc : ShardDoc) :
    Except (ScriptError × Store) (Store × ShardDoc × Outcome) × List Event :=
  let ev0 := printIfVerbose verbose "shard document"
  let oldShardId := shardDoc._id
  let newShardId := splitFirst shardDoc.host
  let newDoc : ShardDoc := { shardDoc with _id := newShardId }
  if newShardId.length = 0 then
    (Except.error (ScriptError.malformedHost, st), ev0)
  else if newShardId ≠ oldShardId then
    let ev1 := ev0 ++ printIfVerbose verbose "shard id does not match its replica set name"
    let docsToFix := countShardIdDocs st oldShardId
    let ev2 := ev1 ++ [Event.countRefs oldShardId]
      ++ printIfVerbose verbose "documents with the old shard id need to be updated"
    if dryRun = false then
      let r1 := fixShards st oldShardId newDoc verbose
      match r1.1 with
      | Except.error e => (Except.error e, ev2 ++ r1.2)
      | Except.ok st1 =>
        let r2 := fixDatabases st1 oldShardId newShardId verbose
        match r2.1 with
        | Except.error e => (Except.error e, ev2 ++ r1.2 ++ r2.2)
        | Except.ok st2 =>
          let r3 := fixChunks st2 oldShardId newShardId verbose
          match r3.1 with
          | Except.error e => (Except.error e, ev2 ++ r1.2 ++ r2.2 ++ r3.2)
          | Except.ok st3 =>
            let docsNotFixed := countShardIdDocs st3 oldShardId
            let ev3 := ev2 ++ r1.2 ++ r2.2 ++ r3.2 ++ [Event.countRefs oldShardId]
            if docsNotFixed = 0 then
              (Except.ok (st3, newDoc,
                { _id := oldShardId, needsFixing := true, fixed := true,
                  docsUpdated := some docsToFix }), ev3)
            else
              (Except.error (ScriptError.incompleteRepair, st3), ev3)
    else
      (Except.ok (st, newDoc,
        { _id := oldShardId, needsFixing := true, fixed := false,
          docsUpdated := none }), ev2)
  else
    (Except.ok (st, newDoc,
      { _id := oldShardId, needsFixing := false, fixed := false,
        docsUpdated := none }), ev0)

/-- The `shards.forEach` loop of the main section: runs `fix` on each loaded
shard document against the current store, collecting the outcomes
(`executionResults`) and the documents as mutated in the caller's array. -/
def runShards (dryRun verbose : Bool) :
    Store → List ShardDoc →
    Except (ScriptError × Store) (Store × List Outcome × List ShardDoc) × List Event
  | st, [] => (Except.ok (st, [], []), [])
  | st, s :: rest =>
    let r := fix dryRun verbose st s
    match r.1 with
    | Except.error e => (Except.error e, r.2)
    | Except.ok (st1, s1, out) =>
      let r2 := runShards dryRun verbose st1 rest
      match r2.1 with
      | Except.error e => (Except.error e, r.2 ++ r2.2)
      | Except.ok (st2, outs, docsA) =>
        (Except.ok (st2, out :: outs, s1 :: docsA), r.2 ++ r2.2)

/-- `fixShardNames(dbName, dryRun, verbose)`: the main section after the
pre-flight checks (an external collaborator that reads nothing from the
three collections): loads all shard documents, asserts the set is nonempty,
and runs `fix` over each.  On any script error the store as left at the
moment of the abort is reported. -/
def fixShardNames (dryRun verbose : Bool) (st : Store) :
    Except (ScriptError × Store) (Store × List Outcome × List ShardDoc) × List Event :=
  let ev0 := printIfVerbose verbose "Running pre-flight checks"
    ++ printIfVerbose verbose "Pre-flight checks completed successfully"
    ++ detectDryRun dryRun
  if st.shards.length = 0 then
    (Except.error (ScriptError.noShards, st), ev0)
  else
    let r := runShards dryRun verbose st st.shards
    (r.1, ev0 ++ r.2)

/-- The store writes of a trace, in order (print and count events removed). -/
def writeOps (evs : List Event) : List WriteOp :=
  evs.filterMap (fun e =>
    match e with
    | Event.write w => some w
    | _ => none)

/-- The store operations of a trace, writes and reference counts, in order
(only print events removed). -/
def opEvents (evs : List Event) : List Event :=
  evs.filter (fun e =>
    match e with
    | Event.msg _ => false
    | _ => true)

/-- The document as `fix` leaves it in the caller's array: `_id` overwritten
with the replica-set name taken from `host`. -/
def reKeyDoc (s : ShardDoc) : ShardDoc := { s with _id := splitFirst s.host }

/-- The outcome `fix` reports for a shard in dry-run mode (and, when the
shard needs no fixing, in execute mode as well). -/
def dryRunOutcome (s : ShardDoc) : Outcome :=
  { _id := s._id, needsFixing := !(splitFirst s.host == s._id), fixed := false,
    docsUpdated := none }

/-- A shard record that already satisfies the repaired invariant: its id is
the (nonempty) replica-set name encoded in its host. -/
def canonicalShard (e : ShardDoc) : Prop :=
  splitFirst e.host = e._id ∧ (splitFirst e.host).length ≠ 0

/-! ### Concrete fixtures -/

/-- The mismatched shard of the worked example in the spec: id `shard0`,
replica set `rs0`. -/
def exDoc : ShardDoc := { _id := "shard0", host := "rs0/h1:27017,h2:27017" }

/-- A store holding `exDoc`, one database and two chunks owned by `shard0`. -/
def exStore : Store :=
  { shards := [exDoc]
    databases := [{ name := "testdb", primary := "shard0" }]
    chunks := [{ range := "c1", shard := "shard0" }, { range := "c2", shard := "shard0" }] }

/-- `exStore` after a successful execute-mode repair. -/
def exStoreRepaired : Store :=
  { shards := [{ _id := "rs0", host := "rs0/h1:27017,h2:27017" }]
    databases := [{ name := "testdb", primary := "rs0" }]
    chunks := [{ range := "c1", shard := "rs0" }, { range := "c2", shard := "rs0" }] }

/-- The outcome reported for `exDoc` by an execute-mode repair: four
documents referenced `shard0` beforehand. -/
def exOutcome : Outcome :=
  { _id := "shard0", needsFixing := true, fixed := true, docsUpdated := some 4 }

/-- A shard record whose id equals its host prefix because both are empty. -/
def c2Doc : ShardDoc := { _id := "", host := "" }

/-- A store holding only `c2Doc`. -/
def c2Store : Store := { shards := [c2Doc], databases := [], chunks := [] }

/-- A mismatched shard owning one database and zero chunks. -/
def c4Doc : ShardDoc := { _id := "shard0", host := "rs0/h1" }

/-- The store for the zero-chunks scenario. -/
def c4Store : Store :=
  { shards := [c4Doc], databases := [{ name := "d1", primary := "shard0" }], chunks := [] }

end FixShardNames

namespace FixShardNames

/-! ### Trace helpers -/

theorem writeOps_append (a b : List Event) : writeOps (a ++ b) = writeOps a ++ writeOps b := by
  simp [writeOps]

theorem opEvents_append (a b : List Event) : opEvents (a ++ b) = opEvents a ++ opEvents b := by
  simp [opEvents]

theorem writeOps_printIfVerbose (v : Bool) (s : String) :
    writeOps (printIfVerbose v s) = [] := by
  cases v <;> rfl

theorem opEvents_printIfVerbose (v : Bool) (s : String) :
    opEvents (printIfVerbose v s) = [] := by
  cases v <;> rfl

theorem writeOps_detectDryRun (d : Bool) : writeOps (detectDryRun d) = [] := by
  cases d <;> rfl

/-! ### Step characterizations: `removeShard` -/

theorem removeShard_fst_ok {st : Store} {oldId : String} {v : Bool} {st1 : Store}
    (h : (removeShard st oldId v).1 = Except.ok st1) :
    st1 = { st with shards := st.shards.filter (fun d => !(d._id == oldId)) } ∧
      (st.shards.filter (fun d => d._id == oldId)).length = 1 := by
  simp only [removeShard] at h
  split at h
  · rename_i hn
    simp only [Except.ok.injEq] at h
    exact ⟨h.symm, hn⟩
  · simp at h

theorem removeShard_eval (st : Store) (oldId : String) (v : Bool)
    (h : (st.shards.filter (fun d => d._id == oldId)).length = 1) :
    (removeShard st oldId v).1 =
      Except.ok { st with shards := st.shards.filter (fun d => !(d._id == oldId)) } := by
  simp only [removeShard, h, if_pos]

theorem opEvents_removeShard (st : Store) (oldId : String) (v : Bool) :
    opEvents (removeShard st oldId v).2 = [Event.write (WriteOp.removeShardDoc oldId)] := by
  simp only [removeShard]
  split <;> cases v <;> rfl

/-! ### Step characterizations: `insertShard` -/

theorem insertShard_fst_ok {st : Store} {newDoc : ShardDoc} {v : Bool} {st1 : Store}
    (h : (insertShard st newDoc v).1 = Except.ok st1) :
    st1 = { st with shards := st.shards ++ [newDoc] } := by
  simp only [insertShard] at h
  split at h
  · simp at h
  · simp only [Except.ok.injEq] at h
    exact h.symm

theorem insertShard_eval (st : Store) (newDoc : ShardDoc) (v : Bool)
    (h : st.shards.any (fun d => d._id == newDoc._id || d.host == newDoc.host) = false) :
    (insertShard st newDoc v).1 = Except.ok { st with shards := st.shards ++ [newDoc] } := by
  simp only [insertShard, h]
  rfl

theorem opEvents_insertShard (st : Store) (newDoc : ShardDoc) (v : Bool) :
    opEvents (insertShard st newDoc v).2 = [Event.write (WriteOp.insertShardDoc newDoc)] := by
  simp only [insertShard]
  split <;> cases v <;> rfl

/-! ### Step characterizations: `fixShards` -/

theorem fixShards_fst_ok {st : Store} {oldId : String} {newDoc : ShardDoc} {v : Bool} {st2 : Store}
    (h : (fixShards st oldId newDoc v).1 = Except.ok st2) :
    st2 = { st with
        shards := st.shards.filter (fun d => !(d._id == oldId)) ++ [newDoc] } ∧
      (st.shards.filter (fun d => d._id == oldId)).length = 1 := by
  simp only [fixShards] at h
  split at h
  · simp at h
  split at h
  · simp at h
  · rename_i st1 hrem
    split at h
    · simp at h
    · rename_i st1' hins
      simp only [Except.ok.injEq] at h
      obtain ⟨hs, hn⟩ := removeShard_fst_ok hrem
      subst hs
      have hi := insertShard_fst_ok hins
      subst hi
      exact ⟨h.symm, hn⟩

theorem fixShards_ok_inv {st : Store} {oldId : String} {newDoc : ShardDoc} {v : Bool}
    {st2 : Store} (h : (fixShards st oldId newDoc v).1 = Except.ok st2) :
    oldId ≠ newDoc._id ∧
      ∃ st1, (removeShard st oldId v).1 = Except.ok st1 ∧
        (insertShard st1 newDoc v).1 = Except.ok st2 := by
  simp only [fixShards] at h
  split at h
  · simp at h
  · rename_i hne
    split at h
    · simp at h
    · rename_i st1 hrem
      split at h
      · simp at h
      · rename_i st1' hins
        simp only [Except.ok.injEq] at h
        subst h
        exact ⟨hne, st1, hrem, hins⟩

theorem fixShards_eval (st : Store) (oldId : String) (newDoc : ShardDoc) (v : Bool)
    (hne : oldId ≠ newDoc._id)
    (h1 : (st.shards.filter (fun d => d._id == oldId)).length = 1)
    (h2 : (st.shards.filter (fun d => !(d._id == oldId))).any
        (fun d => d._id == newDoc._id || d.host == newDoc.host) = false) :
    (fixShards st oldId newDoc v).1 =
      Except.ok { st with
        shards := st.shards.filter (fun d => !(d._id == oldId)) ++ [newDoc] } := by
  have hrem := removeShard_eval st oldId v h1
  have hins := insertShard_eval
    { st with shards := st.shards.filter (fun d => !(d._id == oldId)) } newDoc v h2
  simp only [fixShards, if_neg hne, hrem, hins]

theorem opEvents_fixShards_ok {st : Store} {oldId : String} {newDoc : ShardDoc} {v : Bool}
    {st2 : Store} (h : (fixShards st oldId newDoc v).1 = Except.ok st2) :
    opEvents (fixShards st oldId newDoc v).2 =
      [Event.write (WriteOp.removeShardDoc oldId), Event.write (WriteOp.insertShardDoc newDoc)] := by
  obtain ⟨hne, st1, hrem, hins⟩ := fixShards_ok_inv h
  simp only [fixShards, if_neg hne, hrem, hins]
  simp only [opEvents_append, opEvents_printIfVerbose, opEvents_removeShard, opEvents_insertShard]
  rfl

/-! ### Step characterizations: `fixDatabases` -/

theorem db_modified_filter {oldId newId : String} (hne : newId ≠ oldId) (l : List DatabaseDoc) :
    l.filter (fun d =>
        (d.primary == oldId) && !((({ d with primary := newId } : DatabaseDoc)) == d)) =
      l.filter (fun d => d.primary == oldId) := by
  apply List.filter_congr
  intro d _
  cases d with
  | mk nm pr =>
    by_cases hd : pr = oldId
    · subst hd
      simp [beq_iff_eq, DatabaseDoc.mk.injEq, hne]
    · simp [beq_iff_eq, hd]

theorem fixDatabases_eval (st : Store) (oldId newId : String) (v : Bool) (hne : newId ≠ oldId) :
    (fixDatabases st oldId newId v).1 =
      Except.ok { st with
        databases := st.databases.map
          (fun d => if d.primary == oldId then { d with primary := newId } else d) } := by
  have hm := db_modified_filter hne st.databases
  simp only [fixDatabases, bulkUpdate, checkDatabasesUpdate, hm]
  simp

theorem opEvents_fixDatabases (st : Store) (oldId newId : String) (v : Bool) :
    opEvents (fixDatabases st oldId newId v).2 =
      [Event.write (WriteOp.updateDatabaseDocs oldId newId)] := by
  simp only [fixDatabases]
  split <;> cases v <;> rfl

theorem fixDatabases_fst_ok {st : Store} {oldId newId : String} {v : Bool} {st1 : Store}
    (h : (fixDatabases st oldId newId v).1 = Except.ok st1) :
    st1 = { st with
      databases := st.databases.map
        (fun d => if d.primary == oldId then { d with primary := newId } else d) } := by
  simp only [fixDatabases, bulkUpdate] at h
  split at h
  · simp at h
  · simp only [Except.ok.injEq] at h
    exact h.symm

/-! ### Step characterizations: `fixChunks` -/

theorem chunk_modified_filter {oldId newId : String} (hne : newId ≠ oldId) (l : List ChunkDoc) :
    l.filter (fun c =>
        (c.shard == oldId) && !((({ c with shard := newId } : ChunkDoc)) == c)) =
      l.filter (fun c => c.shard == oldId) := by
  apply List.filter_congr
  intro c _
  cases c with
  | mk rg sh =>
    by_cases hc : sh = oldId
    · subst hc
      simp [beq_iff_eq, ChunkDoc.mk.injEq, hne]
    · simp [beq_iff_eq, hc]

theorem fixChunks_eval_ok (st : Store) (oldId newId : String) (v : Bool) (hne : newId ≠ oldId)
    (hnz : (st.chunks.filter (fun c => c.shard == oldId)).length ≠ 0) :
    (fixChunks st oldId newId v).1 =
      Except.ok { st with
        chunks := st.chunks.map
          (fun c => if c.shard == oldId then { c with shard := newId } else c) } := by
  have hm := chunk_modified_filter hne st.chunks
  simp only [fixChunks, bulkUpdate, checkChunksUpdate, hm]
  simp [hnz]

theorem fixChunks_eval_noChunks (st : Store) (oldId newId : String) (v : Bool)
    (hz : (st.chunks.filter (fun c => c.shard == oldId)).length = 0) :
    (fixChunks st oldId newId v).1 = Except.error (ScriptError.noChunks, st) := by
  have hnil : st.chunks.filter (fun c => c.shard == oldId) = [] :=
    List.length_eq_zero.mp hz
  have hmap : st.chunks.map
      (fun c => if c.shard == oldId then { c with shard := newId } else c) = st.chunks := by
    have hall := List.filter_eq_nil_iff.mp hnil
    calc st.chunks.map (fun c => if c.shard == oldId then { c with shard := newId } else c)
        = st.chunks.map (fun c => c) := by
          apply List.map_congr_left
          intro c hc
          simp [hall c hc]
      _ = st.chunks := List.map_id' st.chunks
  simp only [fixChunks, bulkUpdate, checkChunksUpdate, hz, hmap]
  simp

theorem opEvents_fixChunks (st : Store) (oldId newId : String) (v : Bool) :
    opEvents (fixChunks st oldId newId v).2 =
      [Event.write (WriteOp.updateChunkDocs oldId newId)] := by
  simp only [fixChunks]
  split <;> cases v <;> rfl

theorem fixChunks_fst_ok {st : Store} {oldId newId : String} {v : Bool} {st1 : Store}
    (h : (fixChunks st oldId newId v).1 = Except.ok st1) :
    st1 = { st with
      chunks := st.chunks.map
        (fun c => if c.shard == oldId then { c with shard := newId } else c) } := by
  simp only [fixChunks, bulkUpdate] at h
  split at h
  · simp at h
  · simp only [Except.ok.injEq] at h
    exact h.symm

/-! ### `fix` characterizations -/

theorem fix_malformed_eval {st : Store} {doc : ShardDoc} (dryRun v : Bool)
    (hlen : (splitFirst doc.host).length = 0) :
    (fix dryRun v st doc).1 = Except.error (ScriptError.malformedHost, st) := by
  simp only [fix, hlen, if_pos]

theorem fix_matched_eval (dryRun v : Bool) (st : Store) (doc : ShardDoc)
    (hlen : (splitFirst doc.host).length ≠ 0) (heq : splitFirst doc.host = doc._id) :
    (fix dryRun v st doc).1 =
      Except.ok (st, reKeyDoc doc, dryRunOutcome doc) := by
  have hnn : ¬(splitFirst doc.host ≠ doc._id) := not_not.mpr heq
  have hlen' : doc._id.length ≠ 0 := heq ▸ hlen
  simp only [fix, if_neg hlen, if_neg hnn, reKeyDoc, dryRunOutcome, heq]
  simp [beq_iff_eq, heq, if_neg hlen']

theorem fix_dry_mismatch_eval {st : Store} {doc : ShardDoc} (v : Bool)
    (hlen : (splitFirst doc.host).length ≠ 0) (hne : splitFirst doc.host ≠ doc._id) :
    (fix true v st doc).1 =
      Except.ok (st, reKeyDoc doc, dryRunOutcome doc) := by
  simp only [fix, if_neg hlen, if_pos hne, reKeyDoc, dryRunOutcome]
  have : (true = false) = False := by simp
  simp [this, beq_iff_eq, hne]

theorem fix_exec_ok_inv {st : Store} {doc : ShardDoc} {v : Bool} {st' : Store}
    {d' : ShardDoc} {out : Outcome}
    (hne : splitFirst doc.host ≠ doc._id)
    (h : (fix false v st doc).1 = Except.ok (st', d', out)) :
    ∃ st1 st2,
      (fixShards st doc._id (reKeyDoc doc) v).1 = Except.ok st1 ∧
      (fixDatabases st1 doc._id (splitFirst doc.host) v).1 = Except.ok st2 ∧
      (fixChunks st2 doc._id (splitFirst doc.host) v).1 = Except.ok st' ∧
      countShardIdDocs st' doc._id = 0 ∧
      d' = reKeyDoc doc ∧
      out = { _id := doc._id, needsFixing := true, fixed := true,
              docsUpdated := some (countShardIdDocs st doc._id) } := by
  have hlen : ¬((splitFirst doc.host).length = 0) := by
    intro h0
    rw [fix_malformed_eval false v h0] at h
    exact absurd h (by simp)
  simp only [fix, if_neg hlen, if_pos hne, if_true, reKeyDoc] at h ⊢
  split at h
  · simp at h
  rename_i st1 hsh
  split at h
  · simp at h
  rename_i st2 hdb
  split at h
  · simp at h
  rename_i st3 hck
  split at h
  · rename_i hcount
    simp only [Except.ok.injEq, Prod.mk.injEq] at h
    obtain ⟨h1, h2, h3⟩ := h
    subst h1
    exact ⟨st1, st2, hsh, hdb, hck, hcount, h2.symm, h3.symm⟩
  · simp at h

theorem opEvents_nil : opEvents [] = [] := rfl

theorem opEvents_msg_cons (s : String) (l : List Event) :
    opEvents (Event.msg s :: l) = opEvents l := rfl

theorem opEvents_countRefs_cons (x : String) (l : List Event) :
    opEvents (Event.countRefs x :: l) = Event.countRefs x :: opEvents l := rfl

theorem opEvents_write_cons (w : WriteOp) (l : List Event) :
    opEvents (Event.write w :: l) = Event.write w :: opEvents l := rfl

theorem writeOps_nil : writeOps [] = [] := rfl

theorem writeOps_msg_cons (s : String) (l : List Event) :
    writeOps (Event.msg s :: l) = writeOps l := rfl

theorem writeOps_countRefs_cons (x : String) (l : List Event) :
    writeOps (Event.countRefs x :: l) = writeOps l := rfl

theorem writeOps_write_cons (w : WriteOp) (l : List Event) :
    writeOps (Event.write w :: l) = w :: writeOps l := rfl

theorem fix_exec_eval_noChunks {st : Store} {doc : ShardDoc} (v : Bool)
    (hlen : (splitFirst doc.host).length ≠ 0)
    (hne : splitFirst doc.host ≠ doc._id)
    (h1 : (st.shards.filter (fun d => d._id == doc._id)).length = 1)
    (h2 : (st.shards.filter (fun d => !(d._id == doc._id))).any
        (fun d => d._id == splitFirst doc.host || d.host == doc.host) = false)
    (hz : (st.chunks.filter (fun c => c.shard == doc._id)).length = 0) :
    (fix false v st doc).1 =
      Except.error (ScriptError.noChunks,
        { shards := st.shards.filter (fun d => !(d._id == doc._id)) ++ [reKeyDoc doc]
          databases := st.databases.map
            (fun d => if d.primary == doc._id then { d with primary := splitFirst doc.host } else d)
          chunks := st.chunks }) := by
  have hsh := fixShards_eval st doc._id (reKeyDoc doc) v (Ne.symm hne) h1 h2
  have hdb := fixDatabases_eval
    { st with shards := st.shards.filter (fun d => !(d._id == doc._id)) ++ [reKeyDoc doc] }
    doc._id (splitFirst doc.host) v hne
  have hck := fixChunks_eval_noChunks
    { shards := st.shards.filter (fun d => !(d._id == doc._id)) ++ [reKeyDoc doc]
      databases := st.databases.map
        (fun d => if d.primary == doc._id then { d with primary := splitFirst doc.host } else d)
      chunks := st.chunks }
    doc._id (splitFirst doc.host) v hz
  simp only [reKeyDoc] at hsh hdb hck ⊢
  simp only [fix, if_neg hlen, if_pos hne, if_true, hsh, hdb, hck]

theorem opEvents_fix_exec_ok {st : Store} {doc : ShardDoc} {v : Bool} {st' : Store}
    {d' : ShardDoc} {out : Outcome}
    (hne : splitFirst doc.host ≠ doc._id)
    (h : (fix false v st doc).1 = Except.ok (st', d', out)) :
    opEvents (fix false v st doc).2 =
      [Event.countRefs doc._id,
       Event.write (WriteOp.removeShardDoc doc._id),
       Event.write (WriteOp.insertShardDoc (reKeyDoc doc)),
       Event.write (WriteOp.updateDatabaseDocs doc._id (splitFirst doc.host)),
       Event.write (WriteOp.updateChunkDocs doc._id (splitFirst doc.host)),
       Event.countRefs doc._id] := by
  obtain ⟨st1, st2, hsh, hdb, hck, hcount, hd, hout⟩ := fix_exec_ok_inv hne h
  have hlen : ¬((splitFirst doc.host).length = 0) := by
    intro h0
    rw [fix_malformed_eval false v h0] at h
    exact absurd h (by simp)
  have hevs := opEvents_fixShards_ok hsh
  simp only [reKeyDoc] at hsh hdb hck hevs
  simp only [fix, if_neg hlen, if_pos hne, if_true, hsh, hdb, hck, if_pos hcount]
  simp only [opEvents_append, opEvents_printIfVerbose, opEvents_countRefs_cons,
    opEvents_nil, hevs, opEvents_fixDatabases, opEvents_fixChunks, List.nil_append,
    List.append_nil, List.cons_append, List.append_assoc]
  rfl

theorem writeOps_fix_dry (v : Bool) (st : Store) (doc : ShardDoc) :
    writeOps (fix true v st doc).2 = [] := by
  simp only [fix]
  split
  · cases v <;> rfl
  split
  · cases v <;> rfl
  · cases v <;> rfl

theorem fix_dry_cases (v : Bool) (st : Store) (doc : ShardDoc) :
    (fix true v st doc).1 = Except.ok (st, reKeyDoc doc, dryRunOutcome doc) ∨
      (fix true v st doc).1 = Except.error (ScriptError.malformedHost, st) := by
  by_cases hlen : (splitFirst doc.host).length = 0
  · exact Or.inr (fix_malformed_eval true v hlen)
  by_cases heq : splitFirst doc.host = doc._id
  · exact Or.inl (fix_matched_eval true v st doc hlen heq)
  · exact Or.inl (fix_dry_mismatch_eval v hlen heq)

/-! ### Run-level characterizations -/

theorem runShards_dry (v : Bool) (docs : List ShardDoc) : ∀ st : Store,
    ((runShards true v st docs).1 =
        Except.ok (st, docs.map dryRunOutcome, docs.map reKeyDoc) ∨
      (runShards true v st docs).1 = Except.error (ScriptError.malformedHost, st)) ∧
    writeOps (runShards true v st docs).2 = [] := by
  induction docs with
  | nil => intro st; exact ⟨Or.inl rfl, rfl⟩
  | cons s rest ih =>
    intro st
    obtain ⟨ih1, ih2⟩ := ih st
    rcases fix_dry_cases v st s with hok | herr
    · rcases ih1 with ihok | iherr
      · refine ⟨Or.inl ?_, ?_⟩
        · simp only [runShards, hok, ihok, List.map_cons]
        · simp only [runShards, hok, ihok, writeOps_append, ih2, writeOps_fix_dry,
            List.append_nil]
      · refine ⟨Or.inr ?_, ?_⟩
        · simp only [runShards, hok, iherr]
        · simp only [runShards, hok, iherr, writeOps_append, ih2, writeOps_fix_dry,
            List.append_nil]
    · refine ⟨Or.inr ?_, ?_⟩
      · simp only [runShards, herr]
      · simp only [runShards, herr, writeOps_fix_dry]

theorem fixShardNames_dry (v : Bool) (st : Store) :
    ((fixShardNames true v st).1 =
        Except.ok (st, st.shards.map dryRunOutcome, st.shards.map reKeyDoc) ∨
      (fixShardNames true v st).1 = Except.error (ScriptError.malformedHost, st) ∨
      (fixShardNames true v st).1 = Except.error (ScriptError.noShards, st)) ∧
    writeOps (fixShardNames true v st).2 = [] := by
  by_cases hz : st.shards.length = 0
  · refine ⟨Or.inr (Or.inr ?_), ?_⟩
    · simp only [fixShardNames, if_pos hz]
    · simp only [fixShardNames, if_pos hz, writeOps_append, writeOps_printIfVerbose,
        writeOps_detectDryRun, List.append_nil]
  · obtain ⟨h1, h2⟩ := runShards_dry v st.shards st
    constructor
    · rcases h1 with hok | herr
      · exact Or.inl (by simp only [fixShardNames, if_neg hz, hok])
      · exact Or.inr (Or.inl (by simp only [fixShardNames, if_neg hz, herr]))
    · simp only [fixShardNames, if_neg hz, writeOps_append, writeOps_printIfVerbose,
        writeOps_detectDryRun, h2, List.append_nil, List.nil_append]

/-! ### Canonical shards and idempotence machinery -/

theorem length_filter_partition {α : Type} (l : List α) (p : α → Bool) :
    (l.filter p).length + (l.filter (fun a => !(p a))).length = l.length := by
  induction l with
  | nil => rfl
  | cons a t ih =>
    cases hp : p a <;> simp [List.filter_cons, hp, ← ih] <;> omega

theorem fix_ok_shards_mem {st : Store} {doc : ShardDoc} {v : Bool} {st' : Store}
    {d' : ShardDoc} {out : Outcome}
    (h : (fix false v st doc).1 = Except.ok (st', d', out)) :
    ∀ e ∈ st'.shards, canonicalShard e ∨ (e ∈ st.shards ∧ e ≠ doc) := by
  by_cases hlen : (splitFirst doc.host).length = 0
  · rw [fix_malformed_eval false v hlen] at h
    exact absurd h (by simp)
  by_cases heq : splitFirst doc.host = doc._id
  · rw [fix_matched_eval false v st doc hlen heq] at h
    simp only [Except.ok.injEq, Prod.mk.injEq] at h
    obtain ⟨h1, -, -⟩ := h
    subst h1
    intro e he
    by_cases hed : e = doc
    · subst hed
      exact Or.inl ⟨heq, hlen⟩
    · exact Or.inr ⟨he, hed⟩
  · obtain ⟨st1, st2, hsh, hdb, hck, -, -, -⟩ := fix_exec_ok_inv heq h
    obtain ⟨hs1, -⟩ := fixShards_fst_ok hsh
    have hs2 := fixDatabases_fst_ok hdb
    have hs3 := fixChunks_fst_ok hck
    subst hs1 hs2 hs3
    intro e he
    simp only [List.mem_append, List.mem_filter, List.mem_singleton] at he
    rcases he with ⟨hmem, hne'⟩ | hnew
    · refine Or.inr ⟨hmem, ?_⟩
      intro hed
      subst hed
      simp at hne'
    · subst hnew
      exact Or.inl ⟨rfl, hlen⟩

theorem fix_ok_shards_length {st : Store} {doc : ShardDoc} {dryRun v : Bool} {st' : Store}
    {d' : ShardDoc} {out : Outcome}
    (h : (fix dryRun v st doc).1 = Except.ok (st', d', out)) :
    st'.shards.length = st.shards.length := by
  by_cases hlen : (splitFirst doc.host).length = 0
  · rw [fix_malformed_eval dryRun v hlen] at h
    exact absurd h (by simp)
  by_cases heq : splitFirst doc.host = doc._id
  · rw [fix_matched_eval dryRun v st doc hlen heq] at h
    simp only [Except.ok.injEq, Prod.mk.injEq] at h
    obtain ⟨h1, -, -⟩ := h
    subst h1
    rfl
  cases dryRun with
  | true =>
    rw [fix_dry_mismatch_eval v hlen heq] at h
    simp only [Except.ok.injEq, Prod.mk.injEq] at h
    obtain ⟨h1, -, -⟩ := h
    subst h1
    rfl
  | false =>
    obtain ⟨st1, st2, hsh, hdb, hck, -, -, -⟩ := fix_exec_ok_inv heq h
    obtain ⟨hs1, hcnt⟩ := fixShards_fst_ok hsh
    have hs2 := fixDatabases_fst_ok hdb
    have hs3 := fixChunks_fst_ok hck
    subst hs1 hs2 hs3
    have hp := length_filter_partition st.shards (fun d => d._id == doc._id)
    simp only [List.length_append, List.length_cons, List.length_nil]
    omega

theorem runShards_exec_canonical (v : Bool) (docs : List ShardDoc) :
    ∀ (st st' : Store) (outs : List Outcome) (docsA : List ShardDoc),
    (runShards false v st docs).1 = Except.ok (st', outs, docsA) →
    (∀ e ∈ st.shards, canonicalShard e ∨ e ∈ docs) →
    (∀ e ∈ st'.shards, canonicalShard e) ∧ st'.shards.length = st.shards.length := by
  induction docs with
  | nil =>
    intro st st' outs docsA h hinv
    simp only [runShards, Except.ok.injEq, Prod.mk.injEq] at h
    obtain ⟨h1, -, -⟩ := h
    subst h1
    refine ⟨?_, rfl⟩
    intro e he
    rcases hinv e he with hc | hmem
    · exact hc
    · exact absurd hmem (List.not_mem_nil e)
  | cons s rest ih =>
    intro st st' outs docsA h hinv
    cases hfix : (fix false v st s).1 with
    | error e =>
      simp only [runShards, hfix] at h
      exact absurd h (by simp)
    | ok val =>
      obtain ⟨st1, s1, out⟩ := val
      cases hrun : (runShards false v st1 rest).1 with
      | error e =>
        simp only [runShards, hfix, hrun] at h
        exact absurd h (by simp)
      | ok val2 =>
        obtain ⟨st2, outs2, docsA2⟩ := val2
        simp only [runShards, hfix, hrun, Except.ok.injEq, Prod.mk.injEq] at h
        obtain ⟨h1, -, -⟩ := h
        subst h1
        have hinv1 : ∀ e ∈ st1.shards, canonicalShard e ∨ e ∈ rest := by
          intro e he
          rcases fix_ok_shards_mem hfix e he with hc | ⟨hmem, hne⟩
          · exact Or.inl hc
          · rcases hinv e hmem with hc | hmem2
            · exact Or.inl hc
            · rcases List.mem_cons.mp hmem2 with hes | her
              · exact absurd hes hne
              · exact Or.inr her
        obtain ⟨hcan, hlen2⟩ := ih st1 st2 outs2 docsA2 hrun hinv1
        exact ⟨hcan, hlen2.trans (fix_ok_shards_length hfix)⟩

theorem runShards_canonical_noop (dryRun v : Bool) (docs : List ShardDoc) : ∀ st : Store,
    (∀ e ∈ docs, canonicalShard e) →
    (runShards dryRun v st docs).1 =
      Except.ok (st, docs.map dryRunOutcome, docs.map reKeyDoc) := by
  induction docs with
  | nil => intro st _; rfl
  | cons s rest ih =>
    intro st hall
    have hs := hall s (List.mem_cons_self s rest)
    have hfix := fix_matched_eval dryRun v st s hs.2 hs.1
    have hrest := ih st (fun e he => hall e (List.mem_cons_of_mem s he))
    simp only [runShards, hfix, hrest, List.map_cons]

/-! ### Verbosity does not influence results or writes -/

theorem removeShard_fst_verbose (st : Store) (oldId : String) (v v' : Bool) :
    (removeShard st oldId v).1 = (removeShard st oldId v').1 := by
  simp only [removeShard]
  split <;> rfl

theorem insertShard_fst_verbose (st : Store) (newDoc : ShardDoc) (v v' : Bool) :
    (insertShard st newDoc v).1 = (insertShard st newDoc v').1 := by
  simp only [insertShard]
  split <;> rfl

theorem fixDatabases_fst_verbose (st : Store) (oldId newId : String) (v v' : Bool) :
    (fixDatabases st oldId newId v).1 = (fixDatabases st oldId newId v').1 := by
  simp only [fixDatabases]
  split <;> rfl

theorem fixChunks_fst_verbose (st : Store) (oldId newId : String) (v v' : Bool) :
    (fixChunks st oldId newId v).1 = (fixChunks st oldId newId v').1 := by
  simp only [fixChunks]
  split <;> rfl

theorem writeOps_removeShard (st : Store) (oldId : String) (v : Bool) :
    writeOps (removeShard st oldId v).2 = [WriteOp.removeShardDoc oldId] := by
  simp only [removeShard]
  split <;> cases v <;> rfl

theorem writeOps_insertShard (st : Store) (newDoc : ShardDoc) (v : Bool) :
    writeOps (insertShard st newDoc v).2 = [WriteOp.insertShardDoc newDoc] := by
  simp only [insertShard]
  split <;> cases v <;> rfl

theorem writeOps_fixDatabases (st : Store) (oldId newId : String) (v : Bool) :
    writeOps (fixDatabases st oldId newId v).2 =
      [WriteOp.updateDatabaseDocs oldId newId] := by
  simp only [fixDatabases]
  split <;> cases v <;> rfl

theorem writeOps_fixChunks (st : Store) (oldId newId : String) (v : Bool) :
    writeOps (fixChunks st oldId newId v).2 = [WriteOp.updateChunkDocs oldId newId] := by
  simp only [fixChunks]
  split <;> cases v <;> rfl

theorem fixShards_fst_verbose (st : Store) (oldId : String) (newDoc : ShardDoc) (v v' : Bool) :
    (fixShards st oldId newDoc v).1 = (fixShards st oldId newDoc v').1 := by
  by_cases hid : oldId = newDoc._id
  · simp only [fixShards, if_pos hid]
  · have hr := removeShard_fst_verbose st oldId v v'
    cases hrem : (removeShard st oldId v').1 with
    | error e =>
      simp only [fixShards, if_neg hid, hrem, hr.trans hrem]
    | ok st1 =>
      have hi := insertShard_fst_verbose st1 newDoc v v'
      cases hins : (insertShard st1 newDoc v').1 with
      | error e =>
        simp only [fixShards, if_neg hid, hrem, hr.trans hrem, hins, hi.trans hins]
      | ok st2 =>
        simp only [fixShards, if_neg hid, hrem, hr.trans hrem, hins, hi.trans hins]

theorem writeOps_fixShards_verbose (st : Store) (oldId : String) (newDoc : ShardDoc)
    (v v' : Bool) :
    writeOps (fixShards st oldId newDoc v).2 = writeOps (fixShards st oldId newDoc v').2 := by
  by_cases hid : oldId = newDoc._id
  · simp only [fixShards, if_pos hid, writeOps_printIfVerbose]
  · have hr := removeShard_fst_verbose st oldId v v'
    cases hrem : (removeShard st oldId v').1 with
    | error e =>
      simp only [fixShards, if_neg hid, hrem, hr.trans hrem, writeOps_append,
        writeOps_printIfVerbose, writeOps_removeShard, List.nil_append]
    | ok st1 =>
      have hi := insertShard_fst_verbose st1 newDoc v v'
      cases hins : (insertShard st1 newDoc v').1 with
      | error e =>
        simp only [fixShards, if_neg hid, hrem, hr.trans hrem, hins, hi.trans hins,
          writeOps_append, writeOps_printIfVerbose, writeOps_removeShard,
          writeOps_insertShard, List.nil_append]
      | ok st2 =>
        simp only [fixShards, if_neg hid, hrem, hr.trans hrem, hins, hi.trans hins,
          writeOps_append, writeOps_printIfVerbose, writeOps_removeShard,
          writeOps_insertShard, List.nil_append, List.append_nil]

theorem fix_fst_verbose (dryRun : Bool) (st : Store) (doc : ShardDoc) (v v' : Bool) :
    (fix dryRun v st doc).1 = (fix dryRun v' st doc).1 := by
  by_cases hlen : (splitFirst doc.host).length = 0
  · rw [fix_malformed_eval dryRun v hlen, fix_malformed_eval dryRun v' hlen]
  by_cases heq : splitFirst doc.host = doc._id
  · rw [fix_matched_eval dryRun v st doc hlen heq, fix_matched_eval dryRun v' st doc hlen heq]
  cases dryRun with
  | true => rw [fix_dry_mismatch_eval v hlen heq, fix_dry_mismatch_eval v' hlen heq]
  | false =>
    have hsh := fixShards_fst_verbose st doc._id (reKeyDoc doc) v v'
    simp only [reKeyDoc] at hsh
    cases hshv : (fixShards st doc._id { doc with _id := splitFirst doc.host } v').1 with
    | error e =>
      simp only [fix, if_neg hlen, if_pos heq, if_true, hshv, hsh.trans hshv]
    | ok st1 =>
      have hdb := fixDatabases_fst_verbose st1 doc._id (splitFirst doc.host) v v'
      cases hdbv : (fixDatabases st1 doc._id (splitFirst doc.host) v').1 with
      | error e =>
        simp only [fix, if_neg hlen, if_pos heq, if_true, hshv, hsh.trans hshv,
          hdbv, hdb.trans hdbv]
      | ok st2 =>
        have hck := fixChunks_fst_verbose st2 doc._id (splitFirst doc.host) v v'
        cases hckv : (fixChunks st2 doc._id (splitFirst doc.host) v').1 with
        | error e =>
          simp only [fix, if_neg hlen, if_pos heq, if_true, hshv, hsh.trans hshv,
            hdbv, hdb.trans hdbv, hckv, hck.trans hckv]
        | ok st3 =>
          simp only [fix, if_neg hlen, if_pos heq, if_true, hshv, hsh.trans hshv,
            hdbv, hdb.trans hdbv, hckv, hck.trans hckv]
          split <;> rfl

theorem writeOps_fix_verbose (dryRun : Bool) (st : Store) (doc : ShardDoc) (v v' : Bool) :
    writeOps (fix dryRun v st doc).2 = writeOps (fix dryRun v' st doc).2 := by
  by_cases hlen : (splitFirst doc.host).length = 0
  · simp only [fix, if_pos hlen, writeOps_printIfVerbose]
  by_cases heq : splitFirst doc.host = doc._id
  · have hnn : ¬(splitFirst doc.host ≠ doc._id) := not_not.mpr heq
    simp only [fix, if_neg hlen, if_neg hnn, writeOps_printIfVerbose]
  cases dryRun with
  | true => rw [writeOps_fix_dry, writeOps_fix_dry]
  | false =>
    have hsh := fixShards_fst_verbose st doc._id (reKeyDoc doc) v v'
    have hshw := writeOps_fixShards_verbose st doc._id (reKeyDoc doc) v v'
    simp only [reKeyDoc] at hsh hshw
    cases hshv : (fixShards st doc._id { doc with _id := splitFirst doc.host } v').1 with
    | error e =>
      simp only [fix, if_neg hlen, if_pos heq, if_true, hshv, hsh.trans hshv,
        writeOps_append, writeOps_printIfVerbose, writeOps_countRefs_cons, writeOps_nil,
        hshw, List.nil_append, List.append_nil]
    | ok st1 =>
      have hdb := fixDatabases_fst_verbose st1 doc._id (splitFirst doc.host) v v'
      cases hdbv : (fixDatabases st1 doc._id (splitFirst doc.host) v').1 with
      | error e =>
        simp only [fix, if_neg hlen, if_pos heq, if_true, hshv, hsh.trans hshv,
          hdbv, hdb.trans hdbv, writeOps_append, writeOps_printIfVerbose,
          writeOps_countRefs_cons, writeOps_nil, hshw, writeOps_fixDatabases,
          List.nil_append, List.append_nil]
      | ok st2 =>
        have hck := fixChunks_fst_verbose st2 doc._id (splitFirst doc.host) v v'
        cases hckv : (fixChunks st2 doc._id (splitFirst doc.host) v').1 with
        | error e =>
          simp only [fix, if_neg hlen, if_pos heq, if_true, hshv, hsh.trans hshv,
            hdbv, hdb.trans hdbv, hckv, hck.trans hckv, writeOps_append,
            writeOps_printIfVerbose, writeOps_countRefs_cons, writeOps_nil, hshw,
            writeOps_fixDatabases, writeOps_fixChunks, List.nil_append, List.append_nil]
        | ok st3 =>
          simp only [fix, if_neg hlen, if_pos heq, if_true, hshv, hsh.trans hshv,
            hdbv, hdb.trans hdbv, hckv, hck.trans hckv]
          split <;>
            simp only [writeOps_append, writeOps_printIfVerbose, writeOps_countRefs_cons,
              writeOps_nil, hshw, writeOps_fixDatabases, writeOps_fixChunks,
              List.nil_append, List.append_nil]

theorem runShards_verbose (dryRun : Bool) (docs : List ShardDoc) (v v' : Bool) :
    ∀ st : Store,
    (runShards dryRun v st docs).1 = (runShards dryRun v' st docs).1 ∧
      writeOps (runShards dryRun v st docs).2 = writeOps (runShards dryRun v' st docs).2 := by
  induction docs with
  | nil => intro st; exact ⟨rfl, rfl⟩
  | cons s rest ih =>
    intro st
    have hf := fix_fst_verbose dryRun st s v v'
    have hfw := writeOps_fix_verbose dryRun st s v v'
    cases hfv : (fix dryRun v' st s).1 with
    | error e =>
      refine ⟨?_, ?_⟩
      · simp only [runShards, hfv, hf.trans hfv]
      · simp only [runShards, hfv, hf.trans hfv, hfw]
    | ok val =>
      obtain ⟨st1, s1, out⟩ := val
      obtain ⟨ih1, ih2⟩ := ih st1
      cases hrv : (runShards dryRun v' st1 rest).1 with
      | error e =>
        refine ⟨?_, ?_⟩
        · simp only [runShards, hfv, hf.trans hfv, hrv, ih1.trans hrv]
        · simp only [runShards, hfv, hf.trans hfv, hrv, ih1.trans hrv, writeOps_append,
            hfw, ih2]
      | ok val2 =>
        obtain ⟨st2, outs, docsA⟩ := val2
        refine ⟨?_, ?_⟩
        · simp only [runShards, hfv, hf.trans hfv, hrv, ih1.trans hrv]
        · simp only [runShards, hfv, hf.trans hfv, hrv, ih1.trans hrv, writeOps_append,
            hfw, ih2]

theorem fixShardNames_verbose (dryRun : Bool) (st : Store) (v v' : Bool) :
    (fixShardNames dryRun v st).1 = (fixShardNames dryRun v' st).1 ∧
      writeOps (fixShardNames dryRun v st).2 = writeOps (fixShardNames dryRun v' st).2 := by
  by_cases hz : st.shards.length = 0
  · refine ⟨?_, ?_⟩
    · simp only [fixShardNames, if_pos hz]
    · simp only [fixShardNames, if_pos hz, writeOps_append, writeOps_printIfVerbose,
        writeOps_detectDryRun, List.append_nil, List.nil_append]
  · obtain ⟨h1, h2⟩ := runShards_verbose dryRun st.shards v v' st
    refine ⟨?_, ?_⟩
    · simp only [fixShardNames, if_neg hz, h1]
    · simp only [fixShardNames, if_neg hz, writeOps_append, writeOps_printIfVerbose,
        writeOps_detectDryRun, h2, List.append_nil, List.nil_append]

theorem fix_ok_doc_outcome {st : Store} {doc : ShardDoc} {dryRun v : Bool} {st' : Store}
    {d' : ShardDoc} {out : Outcome}
    (h : (fix dryRun v st doc).1 = Except.ok (st', d', out)) :
    d' = reKeyDoc doc ∧ out._id = doc._id := by
  by_cases hlen : (splitFirst doc.host).length = 0
  · rw [fix_malformed_eval dryRun v hlen] at h
    exact absurd h (by simp)
  by_cases heq : splitFirst doc.host = doc._id
  · rw [fix_matched_eval dryRun v st doc hlen heq] at h
    simp only [Except.ok.injEq, Prod.mk.injEq] at h
    obtain ⟨-, h2, h3⟩ := h
    exact ⟨h2.symm, by rw [← h3]; rfl⟩
  cases dryRun with
  | true =>
    rw [fix_dry_mismatch_eval v hlen heq] at h
    simp only [Except.ok.injEq, Prod.mk.injEq] at h
    obtain ⟨-, h2, h3⟩ := h
    exact ⟨h2.symm, by rw [← h3]; rfl⟩
  | false =>
    obtain ⟨-, -, -, -, -, -, h2, h3⟩ := fix_exec_ok_inv heq h
    exact ⟨h2, by rw [h3]⟩

theorem runShards_ok_docs (dryRun v : Bool) (docs : List ShardDoc) :
    ∀ (st st' : Store) (outs : List Outcome) (docsA : List ShardDoc),
    (runShards dryRun v st docs).1 = Except.ok (st', outs, docsA) →
    docsA = docs.map reKeyDoc ∧
      outs.map (fun o => o._id) = docs.map (fun s => s._id) := by
  induction docs with
  | nil =>
    intro st st' outs docsA h
    simp only [runShards, Except.ok.injEq, Prod.mk.injEq] at h
    obtain ⟨-, h2, h3⟩ := h
    subst h2 h3
    exact ⟨rfl, rfl⟩
  | cons s rest ih =>
    intro st st' outs docsA h
    cases hfix : (fix dryRun v st s).1 with
    | error e =>
      simp only [runShards, hfix] at h
      exact absurd h (by simp)
    | ok val =>
      obtain ⟨st1, s1, out⟩ := val
      cases hrun : (runShards dryRun v st1 rest).1 with
      | error e =>
        simp only [runShards, hfix, hrun] at h
        exact absurd h (by simp)
      | ok val2 =>
        obtain ⟨st2, outs2, docsA2⟩ := val2
        simp only [runShards, hfix, hrun, Except.ok.injEq, Prod.mk.injEq] at h
        obtain ⟨-, h2, h3⟩ := h
        subst h2 h3
        obtain ⟨hd, ho⟩ := ih st1 st2 outs2 docsA2 hrun
        obtain ⟨hdoc, hout⟩ := fix_ok_doc_outcome hfix
        subst hdoc hd
        refine ⟨rfl, ?_⟩
        simp only [List.map_cons, ho, hout]

/-! ### Claims -/

/-- C1: for every shard record whose id differs from the slash-delimited
prefix of its host, an execute-mode repair that completes without error
leaves the store with a shard record whose id equals the host prefix (same
host) and with exactly zero documents across the shards, databases and
chunks collections referencing the old id; the success branch is only
reachable when the final re-count of old-id references is zero, so a
nonzero re-count makes the repair fail instead of returning success. -/
theorem claim_C1_execute_repairs (v : Bool) (st : Store) (doc : ShardDoc)
    (st' : Store) (d' : ShardDoc) (out : Outcome)
    (hne : splitFirst doc.host ≠ doc._id)
    (h : (fix false v st doc).1 = Except.ok (st', d', out)) :
    ({ _id := splitFirst doc.host, host := doc.host } : ShardDoc) ∈ st'.shards ∧
      countShardIdDocs st' doc._id = 0 := by
  obtain ⟨st1, st2, hsh, hdb, hck, hcount, -, -⟩ := fix_exec_ok_inv hne h
  obtain ⟨hs1, -⟩ := fixShards_fst_ok hsh
  have hs2 := fixDatabases_fst_ok hdb
  have hs3 := fixChunks_fst_ok hck
  subst hs1 hs2 hs3
  refine ⟨?_, hcount⟩
  simp [reKeyDoc]

theorem claim_C1_witness :
    splitFirst exDoc.host ≠ exDoc._id ∧
    (fix false false exStore exDoc).1 =
      Except.ok (exStoreRepaired, reKeyDoc exDoc, exOutcome) ∧
    (({ _id := splitFirst exDoc.host, host := exDoc.host } : ShardDoc) ∈ exStoreRepaired.shards ∧
      countShardIdDocs exStoreRepaired exDoc._id = 0) :=
  ⟨by decide, by decide,
    claim_C1_execute_repairs false exStore exDoc exStoreRepaired (reKeyDoc exDoc) exOutcome
      (by decide) (by decide)⟩

/-- C2 counterexample: the record `{_id: "", host: ""}` has an id equal to
the slash-delimited prefix of its host (both empty), yet `fix` does not
return a `needsFixing=false` outcome for it: the nonempty-id assert fires
first and the run aborts with `malformedHost`, in execute and dry-run mode
alike. -/
theorem claim_C2_counterexample :
    splitFirst c2Doc.host = c2Doc._id ∧
    (fix false false c2Store c2Doc).1 =
      Except.error (ScriptError.malformedHost, c2Store) ∧
    (fix true false c2Store c2Doc).1 =
      Except.error (ScriptError.malformedHost, c2Store) := by
  decide

/-- C2 (amended): for every shard record whose id equals the slash-delimited
prefix of its host, provided that prefix is nonempty, `fix` performs no
store writes and returns an outcome with `needsFixing=false` and
`fixed=false`, in both dry-run and execute mode, leaving the store
unchanged. -/
theorem claim_C2_matched_noop (dryRun v : Bool) (st : Store) (doc : ShardDoc)
    (heq : splitFirst doc.host = doc._id)
    (hlen : (splitFirst doc.host).length ≠ 0) :
    (fix dryRun v st doc).1 =
      Except.ok (st, reKeyDoc doc,
        { _id := doc._id, needsFixing := false, fixed := false, docsUpdated := none }) ∧
    writeOps (fix dryRun v st doc).2 = [] := by
  constructor
  · rw [fix_matched_eval dryRun v st doc hlen heq]
    simp [dryRunOutcome, beq_iff_eq, heq]
  · have hnn : ¬(splitFirst doc.host ≠ doc._id) := not_not.mpr heq
    simp only [fix, if_neg hlen, if_neg hnn, writeOps_printIfVerbose]

theorem claim_C2_witness :
    splitFirst (ShardDoc.mk "rs0" "rs0/h1").host = (ShardDoc.mk "rs0" "rs0/h1")._id ∧
    (splitFirst (ShardDoc.mk "rs0" "rs0/h1").host).length ≠ 0 ∧
    ((fix false false exStore (ShardDoc.mk "rs0" "rs0/h1")).1 =
        Except.ok (exStore, reKeyDoc (ShardDoc.mk "rs0" "rs0/h1"),
          { _id := "rs0", needsFixing := false, fixed := false, docsUpdated := none }) ∧
      writeOps (fix false false exStore (ShardDoc.mk "rs0" "rs0/h1")).2 = []) :=
  ⟨by decide, by decide,
    claim_C2_matched_noop false false exStore (ShardDoc.mk "rs0" "rs0/h1")
      (by decide) (by decide)⟩

theorem zip_map_self_snd {α β : Type} (f : α → β) :
    ∀ (l : List α) (p : α × β), p ∈ l.zip (l.map f) → p.2 = f p.1 := by
  intro l
  induction l with
  | nil => intro p hp; simp at hp
  | cons a t ih =>
    intro p hp
    simp only [List.map_cons, List.zip_cons_cons, List.mem_cons] at hp
    rcases hp with rfl | hp
    · rfl
    · exact ih p hp

/-- C3: a dry-run of the whole script performs zero writes to any of the
three collections (its trace contains no write operation and the store
component of every result — success or abort — is the input store), and for
every shard record whose id differs from its host prefix the reported
outcome has `needsFixing=true` and `fixed=false`. -/
theorem claim_C3_dry_run_no_writes (v : Bool) (st : Store) :
    writeOps (fixShardNames true v st).2 = [] ∧
    (∀ st' outs docsA, (fixShardNames true v st).1 = Except.ok (st', outs, docsA) →
      st' = st ∧
      ∀ p ∈ st.shards.zip outs,
        splitFirst p.1.host ≠ p.1._id → p.2.needsFixing = true ∧ p.2.fixed = false) ∧
    (∀ e st2, (fixShardNames true v st).1 = Except.error (e, st2) → st2 = st) := by
  obtain ⟨hcases, hw⟩ := fixShardNames_dry v st
  refine ⟨hw, ?_, ?_⟩
  · intro st' outs docsA h
    rcases hcases with hok | herr | herr
    · rw [hok] at h
      simp only [Except.ok.injEq, Prod.mk.injEq] at h
      obtain ⟨h1, h2, -⟩ := h
      subst h1
      subst h2
      refine ⟨rfl, ?_⟩
      intro p hp hne
      have hsnd := zip_map_self_snd dryRunOutcome st.shards p hp
      have hb : (splitFirst p.1.host == p.1._id) = false := beq_eq_false_iff_ne.mpr hne
      rw [hsnd]
      refine ⟨?_, rfl⟩
      simp [dryRunOutcome, hb]
    · rw [herr] at h
      exact absurd h (by simp)
    · rw [herr] at h
      exact absurd h (by simp)
  · intro e st2 h
    rcases hcases with hok | herr | herr
    · rw [hok] at h
      exact absurd h (by simp)
    · rw [herr] at h
      simp only [Except.error.injEq, Prod.mk.injEq] at h
      exact h.2.symm
    · rw [herr] at h
      simp only [Except.error.injEq, Prod.mk.injEq] at h
      exact h.2.symm

theorem claim_C3_witness :
    writeOps (fixShardNames true false exStore).2 = [] ∧
    exStore = exStore ∧
    (dryRunOutcome exDoc).needsFixing = true ∧ (dryRunOutcome exDoc).fixed = false := by
  have h := claim_C3_dry_run_no_writes false exStore
  have h2 := h.2.1 exStore [dryRunOutcome exDoc] [reKeyDoc exDoc] (by decide)
  exact ⟨h.1, h2.1, h2.2 (exDoc, dryRunOutcome exDoc) (by decide) (by decide)⟩

/-- C4 counterexample: repairing the mismatched shard `c4Doc`, which owns one
database and zero chunks, fails with `noChunks` as claimed, but the store it
leaves behind has the database table already migrated to the new id — not
"unmigrated" as the claim states. -/
theorem claim_C4_counterexample :
    (fix false false c4Store c4Doc).1 =
      Except.error (ScriptError.noChunks,
        { shards := [{ _id := "rs0", host := "rs0/h1" }]
          databases := [{ name := "d1", primary := "rs0" }]
          chunks := [] }) ∧
    ({ shards := [{ _id := "rs0", host := "rs0/h1" }]
       databases := [{ name := "d1", primary := "rs0" }]
       chunks := [] } : Store).databases ≠ c4Store.databases := by
  decide

/-- C4 (amended): in execute mode, repairing a mismatched shard that owns
zero chunks fails with `noChunks`, and the store is left with the shard
record already re-keyed, the database-placement table already migrated to
the new id, and the chunk table unchanged. -/
theorem claim_C4_noChunks_partial_state (v : Bool) (st : Store) (doc : ShardDoc)
    (hlen : (splitFirst doc.host).length ≠ 0)
    (hne : splitFirst doc.host ≠ doc._id)
    (h1 : (st.shards.filter (fun d => d._id == doc._id)).length = 1)
    (h2 : (st.shards.filter (fun d => !(d._id == doc._id))).any
        (fun d => d._id == splitFirst doc.host || d.host == doc.host) = false)
    (hz : (st.chunks.filter (fun c => c.shard == doc._id)).length = 0) :
    (fix false v st doc).1 =
      Except.error (ScriptError.noChunks,
        { shards := st.shards.filter (fun d => !(d._id == doc._id)) ++ [reKeyDoc doc]
          databases := st.databases.map
            (fun d => if d.primary == doc._id then { d with primary := splitFirst doc.host } else d)
          chunks := st.chunks }) :=
  fix_exec_eval_noChunks v hlen hne h1 h2 hz

theorem claim_C4_witness :
    ((splitFirst c4Doc.host).length ≠ 0 ∧
      splitFirst c4Doc.host ≠ c4Doc._id ∧
      (c4Store.shards.filter (fun d => d._id == c4Doc._id)).length = 1 ∧
      (c4Store.shards.filter (fun d => !(d._id == c4Doc._id))).any
        (fun d => d._id == splitFirst c4Doc.host || d.host == c4Doc.host) = false ∧
      (c4Store.chunks.filter (fun c => c.shard == c4Doc._id)).length = 0) ∧
    (fix false false c4Store c4Doc).1 =
      Except.error (ScriptError.noChunks,
        { shards := c4Store.shards.filter (fun d => !(d._id == c4Doc._id)) ++ [reKeyDoc c4Doc]
          databases := c4Store.databases.map
            (fun d => if d.primary == c4Doc._id then { d with primary := splitFirst c4Doc.host } else d)
          chunks := c4Store.chunks }) :=
  ⟨⟨by decide, by decide, by decide, by decide, by decide⟩,
    claim_C4_noChunks_partial_state false c4Store c4Doc
      (by decide) (by decide) (by decide) (by decide) (by decide)⟩

/-- C5 counterexample: for the mismatched shard `exDoc` in dry-run mode the
outcome carries no `docsUpdated` value at all (`none`), although the
pre-repair count of referencing documents (`docsToFix`) is 4 — so the
outcome does not contain `docsUpdated = docsToFix` as the claim states for
every mismatched record. -/
theorem claim_C5_counterexample :
    (fix true false exStore exDoc).1 =
      Except.ok (exStore, reKeyDoc exDoc,
        { _id := "shard0", needsFixing := true, fixed := false, docsUpdated := none }) ∧
    countShardIdDocs exStore "shard0" = 4 ∧
    (none : Option Nat) ≠ some (countShardIdDocs exStore "shard0") := by
  decide

/-- C5 (amended): for every mismatched shard record, a `fix` call that
returns an outcome reports `needsFixing=true`; `fixed=true` exactly when
execute mode ran to completion; and `docsUpdated` equal to the pre-repair
count of documents referencing the old id when execute mode ran to
completion, while in dry-run mode the field is absent (`none`). -/
theorem claim_C5_outcome_fields (dryRun v : Bool) (st : Store) (doc : ShardDoc)
    (st' : Store) (d' : ShardDoc) (out : Outcome)
    (hne : splitFirst doc.host ≠ doc._id)
    (h : (fix dryRun v st doc).1 = Except.ok (st', d', out)) :
    out.needsFixing = true ∧
    (out.fixed = true ↔ dryRun = false) ∧
    out.docsUpdated = (if dryRun then none else some (countShardIdDocs st doc._id)) := by
  cases dryRun with
  | true =>
    rcases fix_dry_cases v st doc with hok | herr
    · rw [hok] at h
      simp only [Except.ok.injEq, Prod.mk.injEq] at h
      obtain ⟨-, -, h3⟩ := h
      rw [← h3]
      have hb : (splitFirst doc.host == doc._id) = false := beq_eq_false_iff_ne.mpr hne
      refine ⟨by simp [dryRunOutcome, hb], by simp [dryRunOutcome], by simp [dryRunOutcome]⟩
    · rw [herr] at h
      exact absurd h (by simp)
  | false =>
    obtain ⟨-, -, -, -, -, -, -, hout⟩ := fix_exec_ok_inv hne h
    subst hout
    exact ⟨rfl, by simp, by simp⟩

theorem claim_C5_witness :
    splitFirst exDoc.host ≠ exDoc._id ∧
    (fix false false exStore exDoc).1 =
      Except.ok (exStoreRepaired, reKeyDoc exDoc, exOutcome) ∧
    (exOutcome.needsFixing = true ∧
      (exOutcome.fixed = true ↔ false = false) ∧
      exOutcome.docsUpdated = (if false then none else some (countShardIdDocs exStore exDoc._id))) :=
  ⟨by decide, by decide,
    claim_C5_outcome_fields false false exStore exDoc exStoreRepaired (reKeyDoc exDoc) exOutcome
      (by decide) (by decide)⟩

/-- C6: during a successful execute-mode re-keying of a mismatched shard the
store-operation trace is exactly: count old-id references, remove the shard
record under the old id, insert it under the new id, propagate to the
database table, propagate to the chunk table, and re-count (verify) — so
removal strictly precedes insertion and the remaining mutation steps follow
the re-key strictly in that order; moreover, in the store as it stands
between the removal and the insertion (the store `removeShard` produced),
no shard record carries the re-keyed host at all — a reader sees neither
version, never a duplicate — provided the old record was the only one with
that host. -/
theorem claim_C6_rekey_ordering (v : Bool) (st : Store) (doc : ShardDoc)
    (r : Store × ShardDoc × Outcome)
    (hne : splitFirst doc.host ≠ doc._id)
    (h : (fix false v st doc).1 = Except.ok r)
    (huniq : ∀ d ∈ st.shards, d.host = doc.host → d._id = doc._id) :
    opEvents (fix false v st doc).2 =
      [Event.countRefs doc._id,
       Event.write (WriteOp.removeShardDoc doc._id),
       Event.write (WriteOp.insertShardDoc (reKeyDoc doc)),
       Event.write (WriteOp.updateDatabaseDocs doc._id (splitFirst doc.host)),
       Event.write (WriteOp.updateChunkDocs doc._id (splitFirst doc.host)),
       Event.countRefs doc._id] ∧
    ∃ stMid, (removeShard st doc._id v).1 = Except.ok stMid ∧
      ∀ d ∈ stMid.shards, d.host ≠ doc.host := by
  obtain ⟨st', d', out⟩ := r
  refine ⟨opEvents_fix_exec_ok hne h, ?_⟩
  obtain ⟨st1, st2, hsh, -, -, -, -, -⟩ := fix_exec_ok_inv hne h
  obtain ⟨-, stR, hrem, -⟩ := fixShards_ok_inv hsh
  obtain ⟨hstR, -⟩ := removeShard_fst_ok hrem
  subst hstR
  refine ⟨_, hrem, ?_⟩
  intro d hd
  simp only [List.mem_filter] at hd
  obtain ⟨hmem, hneq⟩ := hd
  intro hhost
  have hid := huniq d hmem hhost
  simp [hid] at hneq

theorem claim_C6_witness :
    (splitFirst exDoc.host ≠ exDoc._id ∧
      (fix false false exStore exDoc).1 =
        Except.ok (exStoreRepaired, reKeyDoc exDoc, exOutcome) ∧
      (∀ d ∈ exStore.shards, d.host = exDoc.host → d._id = exDoc._id)) ∧
    (opEvents (fix false false exStore exDoc).2 =
      [Event.countRefs exDoc._id,
       Event.write (WriteOp.removeShardDoc exDoc._id),
       Event.write (WriteOp.insertShardDoc (reKeyDoc exDoc)),
       Event.write (WriteOp.updateDatabaseDocs exDoc._id (splitFirst exDoc.host)),
       Event.write (WriteOp.updateChunkDocs exDoc._id (splitFirst exDoc.host)),
       Event.countRefs exDoc._id] ∧
    ∃ stMid, (removeShard exStore exDoc._id false).1 = Except.ok stMid ∧
      ∀ d ∈ stMid.shards, d.host ≠ exDoc.host) :=
  ⟨⟨by decide, by decide, by decide⟩,
    claim_C6_rekey_ordering false exStore exDoc (exStoreRepaired, reKeyDoc exDoc, exOutcome)
      (by decide) (by decide) (by decide)⟩

/-- C7: whenever a full execute-mode run completes successfully, running the
whole script again in execute mode on the resulting store succeeds and
leaves that store unchanged — every shard is then a no-op (`needsFixing`
and `fixed` are false in every outcome of the second run). -/
theorem claim_C7_idempotent (v : Bool) (st st' : Store) (outs : List Outcome)
    (docsA : List ShardDoc)
    (h : (fixShardNames false v st).1 = Except.ok (st', outs, docsA)) :
    (fixShardNames false v st').1 =
      Except.ok (st', st'.shards.map dryRunOutcome, st'.shards.map reKeyDoc) ∧
    ∀ o ∈ st'.shards.map dryRunOutcome, o.needsFixing = false ∧ o.fixed = false := by
  by_cases hz : st.shards.length = 0
  · simp only [fixShardNames, if_pos hz] at h
    exact absurd h (by simp)
  · simp only [fixShardNames, if_neg hz] at h
    have hinv : ∀ e ∈ st.shards, canonicalShard e ∨ e ∈ st.shards := fun e he => Or.inr he
    obtain ⟨hcan, hlen⟩ := runShards_exec_canonical v st.shards st st' outs docsA h hinv
    have hnz' : ¬(st'.shards.length = 0) := by
      rw [hlen]
      exact hz
    have hrun2 := runShards_canonical_noop false v st'.shards st' hcan
    refine ⟨by simp only [fixShardNames, if_neg hnz', hrun2], ?_⟩
    intro o ho
    obtain ⟨e, he, rfl⟩ := List.mem_map.mp ho
    have hc := hcan e he
    constructor
    · simp [dryRunOutcome, beq_iff_eq, hc.1]
    · rfl

theorem claim_C7_witness :
    (fixShardNames false false exStore).1 =
      Except.ok (exStoreRepaired, [exOutcome], [reKeyDoc exDoc]) ∧
    ((fixShardNames false false exStoreRepaired).1 =
        Except.ok (exStoreRepaired, exStoreRepaired.shards.map dryRunOutcome,
          exStoreRepaired.shards.map reKeyDoc) ∧
      ∀ o ∈ exStoreRepaired.shards.map dryRunOutcome,
        o.needsFixing = false ∧ o.fixed = false) :=
  ⟨by decide,
    claim_C7_idempotent false exStore exStoreRepaired [exOutcome] [reKeyDoc exDoc] (by decide)⟩

/-- C8: the database-placement propagation step succeeds exactly when the
bulk-update result reports no upserted document and a matched count equal
to the modified count — in particular zero matched documents is a success —
and a store in which no database references the old id is returned
unchanged. -/
theorem claim_C8_databases_propagation :
    (∀ ret : UpdateResult,
      checkDatabasesUpdate ret = none ↔
        (ret.nUpserted = 0 ∧ ret.nMatched = ret.nModified)) ∧
    (∀ (st : Store) (oldId newId : String) (v : Bool),
      (∀ d ∈ st.databases, d.primary ≠ oldId) →
      (fixDatabases st oldId newId v).1 = Except.ok st) := by
  constructor
  · intro ret
    unfold checkDatabasesUpdate
    by_cases h1 : ret.nUpserted = 0
    · by_cases h2 : ret.nMatched = ret.nModified
      · simp [h1, h2]
      · simp [h1, h2]
    · simp [h1]
  · intro st oldId newId v hno
    have hfil : st.databases.filter (fun d => d.primary == oldId) = [] := by
      apply List.filter_eq_nil_iff.mpr
      intro d hd
      simp only [beq_iff_eq]
      exact hno d hd
    have hfil2 : st.databases.filter (fun d =>
        (d.primary == oldId) && !((({ d with primary := newId } : DatabaseDoc)) == d)) = [] := by
      apply List.filter_eq_nil_iff.mpr
      intro d hd
      have hb : (d.primary == oldId) = false := beq_eq_false_iff_ne.mpr (hno d hd)
      simp [hb]
    have hmap : st.databases.map
        (fun d => if d.primary == oldId then { d with primary := newId } else d) =
          st.databases := by
      calc st.databases.map
            (fun d => if d.primary == oldId then { d with primary := newId } else d)
          = st.databases.map (fun d => d) := by
            apply List.map_congr_left
            intro d hd
            have hb : (d.primary == oldId) = false := beq_eq_false_iff_ne.mpr (hno d hd)
            simp [hb]
        _ = st.databases := List.map_id' st.databases
    simp only [fixDatabases, bulkUpdate, checkDatabasesUpdate, hfil, hfil2, hmap,
      List.length_nil]
    simp

theorem claim_C8_witness :
    checkDatabasesUpdate { nMatched := 3, nUpserted := 0, nModified := 3 } = none ∧
    (∀ d ∈ exStore.databases, d.primary ≠ "nope") ∧
    (fixDatabases exStore "nope" "rs9" false).1 = Except.ok exStore :=
  ⟨(claim_C8_databases_propagation.1 { nMatched := 3, nUpserted := 0, nModified := 3 }).mpr
      (by decide),
    by decide,
    claim_C8_databases_propagation.2 exStore "nope" "rs9" false (by decide)⟩

/-- C9: for every store and every dry-run setting, the verbose flag has no
influence on the result (the final store, the per-shard outcomes and even
the error component of an abort are identical) nor on the sequence of store
writes performed; it gates diagnostic printing only. -/
theorem claim_C9_verbose_no_effect (dryRun : Bool) (st : Store) :
    (fixShardNames dryRun true st).1 = (fixShardNames dryRun false st).1 ∧
    writeOps (fixShardNames dryRun true st).2 =
      writeOps (fixShardNames dryRun false st).2 :=
  fixShardNames_verbose dryRun st true false

theorem claim_C9_witness :
    (fixShardNames false true exStore).1 = (fixShardNames false false exStore).1 ∧
    writeOps (fixShardNames false true exStore).2 =
      writeOps (fixShardNames false false exStore).2 :=
  claim_C9_verbose_no_effect false exStore

/-- C10: `fix` mutates the shard document it is handed: whenever it returns,
the document comes back with its `_id` overwritten by the host prefix
(host unchanged), even when no repair was needed or dry-run prevented any
store write — so after a full run the caller's array of loaded shard
records holds only re-keyed documents — while the outcomes carry the
original (old) shard ids. -/
theorem claim_C10_in_place_mutation :
    (∀ (dryRun v : Bool) (st : Store) (doc : ShardDoc) (st' : Store) (d' : ShardDoc)
        (out : Outcome),
      (fix dryRun v st doc).1 = Except.ok (st', d', out) →
      d'._id = splitFirst doc.host ∧ d'.host = doc.host ∧ out._id = doc._id) ∧
    (∀ (dryRun v : Bool) (st st' : Store) (outs : List Outcome) (docsA : List ShardDoc),
      (fixShardNames dryRun v st).1 = Except.ok (st', outs, docsA) →
      docsA = st.shards.map reKeyDoc ∧
        outs.map (fun o => o._id) = st.shards.map (fun s => s._id)) := by
  constructor
  · intro dryRun v st doc st' d' out h
    obtain ⟨hd, ho⟩ := fix_ok_doc_outcome h
    subst hd
    exact ⟨rfl, rfl, ho⟩
  · intro dryRun v st st' outs docsA h
    by_cases hz : st.shards.length = 0
    · simp only [fixShardNames, if_pos hz] at h
      exact absurd h (by simp)
    · simp only [fixShardNames, if_neg hz] at h
      exact runShards_ok_docs dryRun v st.shards st st' outs docsA h

theorem claim_C10_witness :
    ((fix true false exStore exDoc).1 =
        Except.ok (exStore, reKeyDoc exDoc, dryRunOutcome exDoc) ∧
      ((reKeyDoc exDoc)._id = splitFirst exDoc.host ∧
        (reKeyDoc exDoc).host = exDoc.host ∧ (dryRunOutcome exDoc)._id = exDoc._id)) ∧
    ((fixShardNames true false exStore).1 =
        Except.ok (exStore, [dryRunOutcome exDoc], [reKeyDoc exDoc]) ∧
      ([reKeyDoc exDoc] = exStore.shards.map reKeyDoc ∧
        [dryRunOutcome exDoc].map (fun o => o._id) =
          exStore.shards.map (fun s => s._id))) :=
  ⟨⟨by decide,
     claim_C10_in_place_mutation.1 true false exStore exDoc exStore (reKeyDoc exDoc)
       (dryRunOutcome exDoc) (by decide)⟩,
   ⟨by decide,
     claim_C10_in_place_mutation.2 true false exStore exStore [dryRunOutcome exDoc]
       [reKeyDoc exDoc] (by decide)⟩⟩

end FixShardNames
